import Mathlib

/-!
Shallow embedding of `stonesoup/plotter.py` (Stone Soup visualization module).

The module has two components:
* `Plotter` — a chart builder holding a drawing surface, an append-only legend
  registry (`handles_list`, `labels_list`) and methods `plot_ground_truths`,
  `plot_measurements`, `plot_tracks`.
* `TimeBasedPlotter` — an animator with `prepare_data` (construction-time input
  validation and inversion of measurements), `run_animation` (axis bounds and
  initial lines) and `update_animation` (per-frame line updates).

Modelling conventions:
* Numbers are ℚ (the Python code computes with floats; exact rationals model
  the data flow); timestamps are ℤ.
* Calls into numpy / external numerics (`np.linalg.eig`, `np.linalg.pinv`,
  `np.sqrt`, `np.arctan2`, `np.rad2deg`) are abstracted as a record of
  function parameters `NumKernel`; the embedding is parametric in it.
* Drawing calls (`ax.plot`, `ax.scatter`, `ax.add_artist`) are modelled as
  appending a `DrawCmd` to the plotter state; `ax.legend(...)` is modelled as
  overwriting the `legendHandles`/`legendLabels` snapshot fields.
* `warnings.warn` is modelled as appending the message to a `warns` list.
* Python exceptions are modelled with `Except`.
* The repository classes `State`, `Detection`, `Clutter`, `LinearModel`,
  `NonLinearModel` are not under the provided sources; they are modelled from
  the specification: a measurement model either exposes a `matrix` (linear) or
  an `inverse_function` (nonlinear, possibly unavailable).  Attribute access
  to a missing `inverse_function` (or on `None`) raises `AttributeError`,
  modelled by an `Option` being `none`.
-/

namespace StoneSoup

/-- Matrices as lists of rows of rationals (numpy 2-D arrays). -/
abbrev Mat : Type := List (List ℚ)

/-- Dot product of two rows. -/
def dotQ (a b : List ℚ) : ℚ := (List.zipWith (· * ·) a b).sum

/-- Column `j` of a matrix (out-of-range entries read as 0, as all matrices
used by the plotter are well-formed and in range). -/
def colM (A : Mat) (j : ℕ) : List ℚ := A.map (fun r => r.getD j 0)

/-- Number of columns of a matrix. -/
def nColsM (A : Mat) : ℕ := (A.headD []).length

/-- Matrix transpose. -/
def transposeM (A : Mat) : Mat := (List.range (nColsM A)).map (colM A)

/-- Matrix product (`A @ B` in numpy). -/
def matMulM (A B : Mat) : Mat :=
  A.map (fun r => (List.range (nColsM B)).map (fun j => dotQ r (colM B j)))

/-- Matrix–vector product (`A @ x` for a column vector `x`). -/
def matVecM (A : Mat) (x : List ℚ) : List ℚ := A.map (fun r => dotQ r x)

/-- `np.eye n`. -/
def eyeM (n : ℕ) : Mat :=
  (List.range n).map (fun i => (List.range n).map (fun j => if i = j then (1 : ℚ) else 0))

/-- Row selection `A[[i, j], :]` (numpy fancy indexing with a 2-element list). -/
def rowSelM (A : Mat) (i j : ℕ) : Mat := [A.getD i [], A.getD j []]

/-- Abstraction of the numpy numeric kernels called by the plotter.  `eig`
returns the pair (eigenvalue array `w`, eigenvector matrix `v` whose columns
are the eigenvectors), as `np.linalg.eig` does. -/
structure NumKernel where
  eig : Mat → List ℚ × Mat
  sqrtF : ℚ → ℚ
  atan2F : ℚ → ℚ → ℚ
  rad2degF : ℚ → ℚ
  pinv : Mat → Mat

/-- A keyword-argument dictionary restricted to the style keys the module
touches; `none` means the key is absent from the dict. -/
structure Kwargs where
  linestyle : Option String := none
  marker : Option String := none
  color : Option String := none
deriving DecidableEq

/-- `d.update(k)`: keys present in `k` override those of `d`. -/
def dictUpdate (d k : Kwargs) : Kwargs :=
  { linestyle := k.linestyle <|> d.linestyle,
    marker := k.marker <|> d.marker,
    color := k.color <|> d.color }

/-- A plottable state: a state vector and a timestamp. -/
structure PState where
  state_vector : List ℚ
  timestamp : ℤ
deriving DecidableEq

/-- Measurement models, modelled from the spec (the model classes are outside
the provided sources): linear models expose a `matrix`; nonlinear models may
or may not expose an `inverse_function`; `otherModel` stands for an object of
neither class.  The inverse function consumes the measurement state vector. -/
inductive MModel where
  | linear (matrix : Mat)
  | nonlinear (inverse_function : Option (List ℚ → List ℚ))
  | otherModel

/-- Runtime class of an item handled by `plot_measurements`: a `Clutter`
(subclass of `Detection`), a genuine `Detection`, or something else. -/
inductive MKind where
  | clutter
  | genuine
  | otherKind
deriving DecidableEq

/-- A measurement-space item: state vector, timestamp, optionally attached
measurement model, and its runtime class. -/
structure Det where
  state_vector : List ℚ
  timestamp : ℤ
  measurement_model : Option MModel
  kind : MKind

/-- Ellipse artist parameters as passed to `matplotlib.patches.Ellipse`
(`alpha=0.2` is fixed in the code and omitted here). -/
structure EllipseCmd where
  xy : ℚ × ℚ
  width : ℚ
  height : ℚ
  angle : ℚ
  color : Option String
deriving DecidableEq

/-- A drawing command issued to the axes. -/
inductive DrawCmd where
  | lineCmd (pts : List (ℚ × ℚ)) (style : Kwargs)
  | scatterCmd (pt : List ℚ) (style : Kwargs)
  | ellipseCmd (e : EllipseCmd)
deriving DecidableEq

/-- A legend handle (`Line2D([], [], ...)` or an `Ellipse` patch). -/
inductive Handle where
  | line2d (style : Kwargs)
  | ellipseHandle (color : Option String)
deriving DecidableEq

/-- The chart-builder state: issued drawing commands, the legend registry
(`handles_list`, `labels_list`), the last-rendered legend snapshot, and the
warnings emitted so far. -/
structure Plotter where
  cmds : List DrawCmd
  handles_list : List Handle
  labels_list : List String
  legendHandles : List Handle
  legendLabels : List String
  warns : List String
deriving DecidableEq

/-- `Plotter.__init__`: empty registry, nothing drawn. -/
def initPlotter : Plotter :=
  { cmds := [], handles_list := [], labels_list := [],
    legendHandles := [], legendLabels := [], warns := [] }

/-- Project a list of state vectors to (x, y) pairs through the mapping
indices, as the list comprehensions over `state.state_vector[mapping[i]]` do. -/
def mappedPtsV (m0 m1 : ℕ) (vecs : List (List ℚ)) : List (ℚ × ℚ) :=
  vecs.map (fun v => (v.getD m0 0, v.getD m1 0))

/-- `Plotter.plot_ground_truths`: draw one dashed line per path through the
mapped coordinates, append one "Ground Truth" legend entry, re-render. -/
def plot_ground_truths (p : Plotter) (truths : List (List PState)) (m0 m1 : ℕ)
    (kwargs : Kwargs) : Plotter :=
  let truths_kwargs := dictUpdate { linestyle := some "--" } kwargs
  let cmds := p.cmds ++
    truths.map (fun tr => DrawCmd.lineCmd (mappedPtsV m0 m1 (tr.map PState.state_vector))
      truths_kwargs)
  let handles := p.handles_list ++
    [Handle.line2d { linestyle := truths_kwargs.linestyle, marker := none,
                     color := some "black" }]
  let labels := p.labels_list ++ ["Ground Truth"]
  { cmds := cmds, handles_list := handles, labels_list := labels,
    legendHandles := handles, legendLabels := labels, warns := p.warns }

/-- Model resolution in the measurement loop: the model attached to the
detection is preferred; if it is `None`, the `measurement_model` argument of
the call is used. -/
def resolveModel (fallback : Option MModel) (st : Det) : Option MModel :=
  match st.measurement_model with
  | some mdl => some mdl
  | none => fallback

/-- Outcome of the model-inversion stage for one measurement: either a
recovered state vector, or a skip together with the warning text. -/
inductive MeasOutcome where
  | vec (v : List ℚ)
  | skip (warning : String)
deriving DecidableEq

/-- The model-inversion stage of the loop body of `plot_measurements`:
linear model → pseudo-inverse of its matrix applied to the state vector;
nonlinear model → its inverse function, a missing one warns and skips;
no (or unrecognized) model → warn and skip. -/
def measResolve (K : NumKernel) (fallback : Option MModel) (st : Det) : MeasOutcome :=
  match resolveModel fallback st with
  | some (.linear matrix) => .vec (matVecM (K.pinv matrix) st.state_vector)
  | some (.nonlinear (some f)) => .vec (f st.state_vector)
  | some (.nonlinear none) =>
      .skip "Nonlinear measurement model used with no inverse function available"
  | some .otherModel => .skip "Measurement model type not specified for all detections"
  | none => .skip "Measurement model type not specified for all detections"

/-- The fixed clutter scatter style: `color='y', marker='2'`. -/
def clutterStyle : Kwargs := { linestyle := none, marker := some "2", color := some "y" }

/-- Accumulator of the `plot_measurements` loop: drawing commands issued,
warnings emitted, and whether a clutter point has been plotted (the lazily
created `clutter_handle`). -/
structure MeasAccum where
  cmds : List DrawCmd
  warnList : List String
  clutterSeen : Bool
deriving DecidableEq

/-- One iteration of the `plot_measurements` loop. -/
def measStep (K : NumKernel) (fallback : Option MModel) (mkw : Kwargs) (m0 m1 : ℕ)
    (acc : MeasAccum) (st : Det) : MeasAccum :=
  match measResolve K fallback st with
  | .skip w => { acc with warnList := acc.warnList ++ [w] }
  | .vec sv =>
    match st.kind with
    | .clutter =>
        { acc with
          cmds := acc.cmds ++ [DrawCmd.scatterCmd [sv.getD m0 0, sv.getD m1 0] clutterStyle],
          clutterSeen := true }
    | .genuine =>
        { acc with
          cmds := acc.cmds ++ [DrawCmd.scatterCmd [sv.getD m0 0, sv.getD m1 0] mkw] }
    | .otherKind => { acc with warnList := acc.warnList ++ ["Unknown type"] }

/-- `Plotter.plot_measurements`: process each measurement through model
resolution and classification, then append one "Measurements" legend entry
unconditionally and one "Clutter" entry when clutter was plotted, then
re-render the legend.  (The nested-set flattening of the input is performed
by the caller of this embedding; it does not change any per-item handling.) -/
def plot_measurements (K : NumKernel) (p : Plotter) (measurements : List Det)
    (m0 m1 : ℕ) (measurement_model : Option MModel) (kwargs : Kwargs) : Plotter :=
  let measurement_kwargs := dictUpdate { marker := some "o", color := some "b" } kwargs
  let measurements_handle := Handle.line2d
    { linestyle := some "", marker := measurement_kwargs.marker,
      color := measurement_kwargs.color }
  let acc := measurements.foldl (measStep K measurement_model measurement_kwargs m0 m1)
    { cmds := [], warnList := [], clutterSeen := false }
  let handles := p.handles_list ++ [measurements_handle] ++
    (if acc.clutterSeen then [Handle.line2d clutterStyle] else [])
  let labels := p.labels_list ++ ["Measurements"] ++
    (if acc.clutterSeen then ["Clutter"] else [])
  { cmds := p.cmds ++ acc.cmds, handles_list := handles, labels_list := labels,
    legendHandles := handles, legendLabels := labels, warns := p.warns ++ acc.warnList }

/-- A track state: state vector, covariance matrix, and the particle sample
state vectors (used only by the particle branch). -/
structure TState where
  state_vector : List ℚ
  covar : Mat
  particles : List (List ℚ)
deriving DecidableEq

/-- A track: its state dimensionality `ndim` and its ordered states. -/
structure Track where
  ndim : ℕ
  states : List TState
deriving DecidableEq

/-- The uncertainty-ellipse construction of `plot_tracks` for one state:
`HH = np.eye(track.ndim)[mapping, :]`, `w, v = np.linalg.eig(HH @ covar @ HH.T)`,
orientation from the eigenvector column of the larger eigenvalue
(`np.argmax` / `np.argmin` pick the first extremal index), width and height
`2 * sqrt` of the larger and smaller eigenvalue, centred at state-vector
components 0 and 2. -/
def trackEllipse (K : NumKernel) (m0 m1 : ℕ) (color : Option String)
    (tr : Track) (st : TState) : EllipseCmd :=
  let HH := rowSelM (eyeM tr.ndim) m0 m1
  let wv := K.eig (matMulM (matMulM HH st.covar) (transposeM HH))
  let w := wv.1
  let v := wv.2
  let maxInd := if w.getD 0 0 ≥ w.getD 1 0 then 0 else 1
  let minInd := if w.getD 0 0 ≤ w.getD 1 0 then 0 else 1
  { xy := (st.state_vector.getD 0 0, st.state_vector.getD 2 0),
    width := 2 * K.sqrtF (w.getD maxInd 0),
    height := 2 * K.sqrtF (w.getD minInd 0),
    angle := K.rad2degF (K.atan2F ((v.getD 1 []).getD maxInd 0) ((v.getD 0 []).getD maxInd 0)),
    color := color }

/-- Style of the particle scatter: `linestyle='', marker='.'`
(markersize and alpha are fixed constants, not modelled). -/
def particleStyle : Kwargs := { linestyle := some "", marker := some ".", color := none }

/-- `Plotter.plot_tracks`: draw each track as a line through the mapped
coordinates and append one "Track" legend entry; then, depending on the
flags (`uncertainty` checked first), add one ellipse per state per track and
an "Uncertainty" entry, or one particle cloud per state per track and a
"Particles" entry, or nothing more; finally re-render the legend. -/
def plot_tracks (K : NumKernel) (p : Plotter) (tracks : List Track) (m0 m1 : ℕ)
    (uncertainty particle : Bool) (kwargs : Kwargs) : Plotter :=
  let tracks_kwargs := dictUpdate { linestyle := some "-", marker := some ".", color := none }
    kwargs
  let cmds1 := p.cmds ++
    tracks.map (fun tr =>
      DrawCmd.lineCmd (mappedPtsV m0 m1 (tr.states.map TState.state_vector)) tracks_kwargs)
  let handles1 := p.handles_list ++
    [Handle.line2d { linestyle := tracks_kwargs.linestyle, marker := tracks_kwargs.marker,
                     color := some "black" }]
  let labels1 := p.labels_list ++ ["Track"]
  if uncertainty then
    let cmds2 := cmds1 ++ tracks.flatMap (fun tr =>
      tr.states.map (fun st => DrawCmd.ellipseCmd (trackEllipse K m0 m1 tracks_kwargs.color tr st)))
    let handles2 := handles1 ++ [Handle.ellipseHandle tracks_kwargs.color]
    let labels2 := labels1 ++ ["Uncertainty"]
    { cmds := cmds2, handles_list := handles2, labels_list := labels2,
      legendHandles := handles2, legendLabels := labels2, warns := p.warns }
  else if particle then
    let cmds2 := cmds1 ++ tracks.flatMap (fun tr =>
      tr.states.map (fun st =>
        DrawCmd.lineCmd (mappedPtsV 0 2 st.particles) particleStyle))
    let handles2 := handles1 ++ [Handle.line2d { linestyle := some "", marker := some ".",
                                                 color := some "black" }]
    let labels2 := labels1 ++ ["Particles"]
    { cmds := cmds2, handles_list := handles2, labels_list := labels2,
      legendHandles := handles2, legendLabels := labels2, warns := p.warns }
  else
    { cmds := cmds1, handles_list := handles1, labels_list := labels1,
      legendHandles := handles1, legendLabels := labels1, warns := p.warns }

/-! ### Time-based animator -/

/-- An element of the list handed to the animator: a plain `State`, a
`Detection` (which is a subclass of `State`), or an object that is not a
`State` at all. -/
inductive Elem where
  | state (s : PState)
  | det (d : Det)
  | nonState

/-- `isinstance(e, State)`. -/
def isState : Elem → Bool
  | .nonState => false
  | _ => true

/-- `isinstance(e, Detection)`. -/
def isDet : Elem → Bool
  | .det _ => true
  | _ => false

/-- One step of the inversion comprehension in `prepare_data`:
`State(e.measurement_model.inverse_function(e), timestamp=e.timestamp)`.
`none` models an `AttributeError`: no attached model (attribute access on
`None`), or a model without an `inverse_function` attribute (the linear and
unrecognized model classes), or an element without a `measurement_model`
attribute (a plain `State`; unreachable under the all-`Detection` guard). -/
def invElem : Elem → Option Elem
  | .det d =>
    match d.measurement_model with
    | some (.nonlinear (some f)) => some (.state ⟨f d.state_vector, d.timestamp⟩)
    | _ => none
  | _ => none

/-- The list comprehension of `prepare_data` inside the `try`: elements are
inverted in order and the first `AttributeError` aborts the whole list. -/
def invertAll : List Elem → Option (List Elem)
  | [] => some []
  | e :: rest => do
    let v ← invElem e
    let r ← invertAll rest
    some (v :: r)

/-- `TimeBasedPlotter.prepare_data`: if any element is not a `State`, raise
`NotImplementedError` (modelled as `.error ()`); if all are `State` but not
all are `Detection`, pass the data through; if all are `Detection`, invert
every element, and a single `AttributeError` makes the whole output `None`. -/
def prepare_data (data_source : List Elem) : Except Unit (Option (List Elem)) :=
  if data_source.all isState then
    if data_source.all isDet then
      match invertAll data_source with
      | some output => .ok (some output)
      | none => .ok none
    else .ok (some data_source)
  else .error ()

/-- A line's displayed data (`Line2D.set_data`): a list of (x, y) points. -/
abbrev LineData : Type := List (ℚ × ℚ)

/-- The body of the `update_animation` loop for index `i`: a `None` data
source is skipped; otherwise the states with `timestamp <= timestamp` are
projected to components 0 and 2, and if nonempty they replace `lines[i]`. -/
def updateAt (t : ℤ) (ls : List LineData) (i : ℕ) (d : Option (List PState)) :
    List LineData :=
  match d with
  | none => ls
  | some ds =>
    let pts := mappedPtsV 0 2
      ((ds.filter (fun s => decide (s.timestamp ≤ t))).map PState.state_vector)
    if pts.isEmpty then ls else ls.set i pts

/-- The `enumerate(data_list)` loop of `update_animation`, carrying the index. -/
def updateLoop (t : ℤ) : List LineData → ℕ → List (Option (List PState)) → List LineData
  | ls, _, [] => ls
  | ls, i, d :: rest => updateLoop t (updateAt t ls i d) (i + 1) rest

/-- `TimeBasedPlotter.update_animation`: for each data source, in order,
update the line of the same index with the points visible at frame time `t`. -/
def update_animation (t : ℤ) (lines : List LineData)
    (data_list : List (Option (List PState))) : List LineData :=
  updateLoop t lines 0 data_list

/-- One animator object as consumed by `run_animation`: its prepared data
(`None` when inversion failed), its legend key and its plot kwargs. -/
structure PlotObj where
  plotting_data : Option (List PState)
  legend_key : String
  kw : Kwargs
deriving DecidableEq

/-- The Python exceptions that `run_animation` can raise at runtime. -/
inductive RunErr where
  | indexErr
  | typeErr
  | valueErr
deriving DecidableEq

/-- The line-creation loop of `run_animation`: series with `None` data are
skipped; for the others `np.array(...)[:1, 0]` on an empty series raises an
`IndexError` (a 1-D empty array has no second axis), and otherwise an initial
one-point line is plotted and the line, legend key and data are collected. -/
def mkLines : List PlotObj → Except RunErr (List LineData × List String × List (List PState))
  | [] => .ok ([], [], [])
  | o :: rest =>
    match o.plotting_data with
    | none => mkLines rest
    | some ds =>
      if ds.isEmpty then .error .indexErr
      else do
        let (ls, ks, pd) ← mkLines rest
        .ok (mappedPtsV 0 2 ((ds.take 1).map PState.state_vector) :: ls,
             o.legend_key :: ks, ds :: pd)

/-- The generator `(state for line in data for state in line.plotting_data)`
of the axis-bounds computation: it iterates the stored data of every series
in `data`, so any `None` raises a `TypeError` (`NoneType` is not iterable). -/
def allStatesData : List PlotObj → Except RunErr (List PState)
  | [] => .ok []
  | o :: rest =>
    match o.plotting_data with
    | none => .error .typeErr
    | some ds => do
      let r ← allStatesData rest
      .ok (ds ++ r)

/-- Minimum of a nonempty list, seeded with its head. -/
def minQ (x : ℚ) (l : List ℚ) : ℚ := l.foldl min x

/-- Maximum of a nonempty list, seeded with its head. -/
def maxQ (x : ℚ) (l : List ℚ) : ℚ := l.foldl max x

/-- The `plt.xlim` / `plt.ylim` computation of `run_animation`: min and max of
state-vector components 0 and 2 over every state of every series; `min` and
`max` of an empty sequence raise a `ValueError`. -/
def computeBounds (data : List PlotObj) : Except RunErr ((ℚ × ℚ) × (ℚ × ℚ)) := do
  let sts ← allStatesData data
  match sts with
  | [] => .error .valueErr
  | s :: rest =>
    let xs := (s :: rest).map (fun a => a.state_vector.getD 0 0)
    let ys := (s :: rest).map (fun a => a.state_vector.getD 2 0)
    .ok ((minQ (xs.headD 0) xs.tail, maxQ (xs.headD 0) xs.tail),
         (minQ (ys.headD 0) ys.tail, maxQ (ys.headD 0) ys.tail))

/-- The observable outcome of `run_animation`: initial lines, legend keys,
axis bounds, and the line data after all animation frames have run. -/
structure RunResult where
  lines : List LineData
  legend : List String
  bounds : (ℚ × ℚ) × (ℚ × ℚ)
  finalLines : List LineData
deriving DecidableEq

/-- `TimeBasedPlotter.run_animation`: create the initial lines (skipping
`None` series), compute the axis bounds over all series, then drive
`update_animation` once per frame timestamp. -/
def run_animation (times_to_plot : List ℤ) (data : List PlotObj) :
    Except RunErr RunResult := do
  let (the_lines, legends_key, plotting_data) ← mkLines data
  let bounds ← computeBounds data
  let final := times_to_plot.foldl
    (fun ls t => update_animation t ls (plotting_data.map some)) the_lines
  .ok { lines := the_lines, legend := legends_key, bounds := bounds, finalLines := final }

/-! ### Helper lemmas: the `plot_measurements` loop decomposes per item -/

/-- The contribution of a single measurement to the loop accumulator. -/
def measDelta (K : NumKernel) (fb : Option MModel) (mkw : Kwargs) (m0 m1 : ℕ)
    (st : Det) : MeasAccum :=
  measStep K fb mkw m0 m1 { cmds := [], warnList := [], clutterSeen := false } st

/-- Whether the loop plots a clutter point for `st`: its model resolves to a
state vector and it is a `Clutter` instance. -/
def clutterPlotted (K : NumKernel) (fb : Option MModel) (st : Det) : Bool :=
  match measResolve K fb st, st.kind with
  | .vec _, .clutter => true
  | _, _ => false

theorem measStep_acc (K : NumKernel) (fb : Option MModel) (mkw : Kwargs) (m0 m1 : ℕ)
    (acc : MeasAccum) (st : Det) :
    measStep K fb mkw m0 m1 acc st =
      { cmds := acc.cmds ++ (measDelta K fb mkw m0 m1 st).cmds,
        warnList := acc.warnList ++ (measDelta K fb mkw m0 m1 st).warnList,
        clutterSeen := acc.clutterSeen || (measDelta K fb mkw m0 m1 st).clutterSeen } := by
  unfold measDelta measStep
  cases measResolve K fb st with
  | skip w => simp
  | vec sv => cases h : st.kind <;> simp

theorem measFold (K : NumKernel) (fb : Option MModel) (mkw : Kwargs) (m0 m1 : ℕ) :
    ∀ (l : List Det) (acc : MeasAccum),
      l.foldl (measStep K fb mkw m0 m1) acc =
        { cmds := acc.cmds ++ l.flatMap (fun st => (measDelta K fb mkw m0 m1 st).cmds),
          warnList := acc.warnList ++ l.flatMap (fun st => (measDelta K fb mkw m0 m1 st).warnList),
          clutterSeen := acc.clutterSeen || l.any (fun st => (measDelta K fb mkw m0 m1 st).clutterSeen) }
  | [], acc => by simp
  | st :: rest, acc => by
    rw [List.foldl_cons, measFold K fb mkw m0 m1 rest, measStep_acc]
    simp [Bool.or_assoc]

theorem measDelta_clutterSeen (K : NumKernel) (fb : Option MModel) (mkw : Kwargs)
    (m0 m1 : ℕ) (st : Det) :
    (measDelta K fb mkw m0 m1 st).clutterSeen = clutterPlotted K fb st := by
  unfold measDelta measStep clutterPlotted
  cases measResolve K fb st with
  | skip w => simp
  | vec sv => cases st.kind <;> simp

/-- C4: every call to `plot_measurements` appends exactly one "Measurements"
legend entry unconditionally after the measurement loop (also on an empty
input), and exactly one "Clutter" entry iff at least one clutter point was
plotted during that call, in that order, and the legend is re-rendered from
the full accumulated lists afterwards. -/
theorem plot_measurements_legend_entries (K : NumKernel) (p : Plotter)
    (measurements : List Det) (m0 m1 : ℕ) (fb : Option MModel) (kwargs : Kwargs) :
    (plot_measurements K p measurements m0 m1 fb kwargs).labels_list =
      p.labels_list ++ ["Measurements"] ++
        (if measurements.any (clutterPlotted K fb) then ["Clutter"] else []) ∧
    (plot_measurements K p measurements m0 m1 fb kwargs).labels_list.count "Measurements" =
      p.labels_list.count "Measurements" + 1 ∧
    (plot_measurements K p measurements m0 m1 fb kwargs).labels_list.count "Clutter" =
      p.labels_list.count "Clutter" +
        (if measurements.any (clutterPlotted K fb) then 1 else 0) ∧
    (plot_measurements K p measurements m0 m1 fb kwargs).legendLabels =
      (plot_measurements K p measurements m0 m1 fb kwargs).labels_list ∧
    (plot_measurements K p measurements m0 m1 fb kwargs).legendHandles =
      (plot_measurements K p measurements m0 m1 fb kwargs).handles_list ∧
    (plot_measurements K p [] m0 m1 fb kwargs).labels_list =
      p.labels_list ++ ["Measurements"] ∧
    (∀ st : Det, clutterPlotted K fb st = true ↔
      st.kind = MKind.clutter ∧ ∃ v, measResolve K fb st = MeasOutcome.vec v) := by
  have hlab : (plot_measurements K p measurements m0 m1 fb kwargs).labels_list =
      p.labels_list ++ ["Measurements"] ++
        (if measurements.any (clutterPlotted K fb) then ["Clutter"] else []) := by
    simp only [plot_measurements, measFold, measDelta_clutterSeen, Bool.false_or]
  refine ⟨hlab, ?_, ?_, ?_, ?_, ?_, ?_⟩
  · rw [hlab]
    by_cases h : measurements.any (clutterPlotted K fb) <;>
      simp [h, List.count_append, List.count_singleton]
  · rw [hlab]
    by_cases h : measurements.any (clutterPlotted K fb) <;>
      simp [h, List.count_append, List.count_singleton]
  · simp only [plot_measurements]
  · simp only [plot_measurements]
  · simp [plot_measurements, measFold]
  · intro st
    unfold clutterPlotted
    cases h : measResolve K fb st with
    | skip w => simp [h]
    | vec sv =>
      cases hk : st.kind <;> simp [h, hk]

/-! ### Concrete objects used by witnesses and counterexamples -/

/-- A concrete numeric kernel: `eig` reads the diagonal of the 2×2 input and
returns the identity as eigenvector matrix; `sqrt`, `atan2`, `rad2deg` and
`pinv` are simple total stand-ins (the theorems hold for every kernel). -/
def diagKernel : NumKernel :=
  { eig := fun M => ([(M.getD 0 []).getD 0 0, (M.getD 1 []).getD 1 0], eyeM 2),
    sqrtF := fun q => q,
    atan2F := fun y x => y + x,
    rad2degF := fun q => q,
    pinv := fun A => transposeM A }

/-- A nonlinear measurement model whose inverse function is the identity. -/
def invIdModel : MModel := .nonlinear (some (fun v => v))

/-- A concrete clutter measurement with an invertible attached model. -/
def clutterDetEx : Det := ⟨[3, 4], 0, some invIdModel, .clutter⟩

/-- A concrete genuine detection with an invertible attached model. -/
def genuineDetEx : Det := ⟨[5, 6], 0, some invIdModel, .genuine⟩

/-- C8: for every input and every caller style override, a clutter point is
plotted with the fixed style `color='y', marker='2'` (the override does not
occur in it), while a genuine detection is plotted with the merged default
and override style; the drawn commands are exactly the per-item
contributions, in input order. -/
theorem plot_measurements_styles (K : NumKernel) (p : Plotter)
    (measurements : List Det) (m0 m1 : ℕ) (fb : Option MModel) (kwargs : Kwargs) :
    (plot_measurements K p measurements m0 m1 fb kwargs).cmds =
      p.cmds ++ measurements.flatMap (fun st =>
        (measDelta K fb (dictUpdate { marker := some "o", color := some "b" } kwargs)
          m0 m1 st).cmds) ∧
    (∀ st : Det, ∀ sv : List ℚ, measResolve K fb st = MeasOutcome.vec sv →
      st.kind = MKind.clutter →
      (measDelta K fb (dictUpdate { marker := some "o", color := some "b" } kwargs)
          m0 m1 st).cmds =
        [DrawCmd.scatterCmd [sv.getD m0 0, sv.getD m1 0]
          { linestyle := none, marker := some "2", color := some "y" }]) ∧
    (∀ st : Det, ∀ sv : List ℚ, measResolve K fb st = MeasOutcome.vec sv →
      st.kind = MKind.genuine →
      (measDelta K fb (dictUpdate { marker := some "o", color := some "b" } kwargs)
          m0 m1 st).cmds =
        [DrawCmd.scatterCmd [sv.getD m0 0, sv.getD m1 0]
          (dictUpdate { marker := some "o", color := some "b" } kwargs)]) := by
  refine ⟨?_, ?_, ?_⟩
  · simp [plot_measurements, measFold]
  · intro st sv hres hk
    unfold measDelta measStep
    rw [hres, hk]
    rfl
  · intro st sv hres hk
    unfold measDelta measStep
    rw [hres, hk]
    rfl

/-- Witness for C8 at concrete inputs: with the override `color='r'`, the
clutter point keeps the fixed yellow tri-up style and the genuine detection
point receives the overridden style. -/
theorem plot_measurements_styles_witness :
    (measDelta diagKernel none
        (dictUpdate { marker := some "o", color := some "b" } { color := some "r" })
        0 1 clutterDetEx).cmds =
      [DrawCmd.scatterCmd [3, 4]
        { linestyle := none, marker := some "2", color := some "y" }] ∧
    (measDelta diagKernel none
        (dictUpdate { marker := some "o", color := some "b" } { color := some "r" })
        0 1 genuineDetEx).cmds =
      [DrawCmd.scatterCmd [5, 6]
        { linestyle := none, marker := some "o", color := some "r" }] := by
  constructor
  · exact (plot_measurements_styles diagKernel initPlotter [] 0 1 none
      { color := some "r" }).2.1 clutterDetEx [3, 4] rfl rfl
  · have h := (plot_measurements_styles diagKernel initPlotter [] 0 1 none
      { color := some "r" }).2.2 genuineDetEx [5, 6] rfl rfl
    rw [h]
    rfl

/-- A concrete detection whose attached model is linear. -/
def linDetEx : Det := ⟨[1, 2], 0, some (.linear [[1, 0], [0, 2]]), .genuine⟩

/-- A concrete detection with no attached model. -/
def noModelDetEx : Det := ⟨[7, 8], 0, none, .genuine⟩

/-- C3: in `plot_measurements` the model attached to the measurement is
preferred and the argument is only a fallback; a linear model recovers the
plotted state vector as the pseudo-inverse of its matrix applied to the
measurement vector; a nonlinear model without an inverse function, or an
unresolvable model, makes that single measurement be skipped with a warning
and no plotted point, while the remaining measurements are still processed. -/
theorem plot_measurements_model_resolution (K : NumKernel) (p : Plotter)
    (m0 m1 : ℕ) (fb : Option MModel) (kwargs : Kwargs) :
    (∀ st : Det, ∀ mdl : MModel, st.measurement_model = some mdl →
      resolveModel fb st = some mdl) ∧
    (∀ st : Det, st.measurement_model = none → resolveModel fb st = fb) ∧
    (∀ st : Det, ∀ A : Mat, resolveModel fb st = some (MModel.linear A) →
      measResolve K fb st = MeasOutcome.vec (matVecM (K.pinv A) st.state_vector)) ∧
    (∀ st : Det, resolveModel fb st = some (MModel.nonlinear none) →
      measResolve K fb st =
        MeasOutcome.skip "Nonlinear measurement model used with no inverse function available") ∧
    (∀ st : Det, resolveModel fb st = none →
      measResolve K fb st =
        MeasOutcome.skip "Measurement model type not specified for all detections") ∧
    (∀ pre post : List Det, ∀ st : Det, (∃ w, measResolve K fb st = MeasOutcome.skip w) →
      (plot_measurements K p (pre ++ st :: post) m0 m1 fb kwargs).cmds =
        (plot_measurements K p (pre ++ post) m0 m1 fb kwargs).cmds ∧
      (plot_measurements K p (pre ++ st :: post) m0 m1 fb kwargs).warns.length =
        (plot_measurements K p (pre ++ post) m0 m1 fb kwargs).warns.length + 1) := by
  refine ⟨?_, ?_, ?_, ?_, ?_, ?_⟩
  · intro st mdl h
    unfold resolveModel
    rw [h]
  · intro st h
    unfold resolveModel
    rw [h]
  · intro st A h
    unfold measResolve
    rw [h]
  · intro st h
    unfold measResolve
    rw [h]
  · intro st h
    unfold measResolve
    rw [h]
  · intro pre post st hskip
    obtain ⟨w, hw⟩ := hskip
    have hdelta : ∀ mkw : Kwargs,
        measDelta K fb mkw m0 m1 st =
          { cmds := [], warnList := [w], clutterSeen := false } := by
      intro mkw
      unfold measDelta measStep
      rw [hw]
      rfl
    constructor
    · simp only [plot_measurements, measFold, List.flatMap_append, List.flatMap_cons, hdelta]
      simp
    · simp only [plot_measurements, measFold, List.flatMap_append, List.flatMap_cons, hdelta]
      simp [Nat.add_comm, Nat.add_assoc, Nat.add_left_comm]

/-- Witness for C3 at concrete inputs: the attached linear model of
`linDetEx` wins over a nonlinear fallback and its pseudo-inverse produces the
plotted vector; the model-less `noModelDetEx` is skipped with a warning while
the neighbouring measurements are still plotted. -/
theorem plot_measurements_model_resolution_witness :
    resolveModel (some invIdModel) linDetEx = some (MModel.linear [[1, 0], [0, 2]]) ∧
    measResolve diagKernel none linDetEx = MeasOutcome.vec [1, 4] ∧
    measResolve diagKernel none noModelDetEx =
      MeasOutcome.skip "Measurement model type not specified for all detections" ∧
    (plot_measurements diagKernel initPlotter [genuineDetEx, noModelDetEx] 0 1 none {}).cmds =
      (plot_measurements diagKernel initPlotter [genuineDetEx] 0 1 none {}).cmds ∧
    (plot_measurements diagKernel initPlotter [genuineDetEx, noModelDetEx] 0 1 none {}).warns.length =
      (plot_measurements diagKernel initPlotter [genuineDetEx] 0 1 none {}).warns.length + 1 := by
  refine ⟨?_, ?_, ?_, ?_, ?_⟩
  · exact (plot_measurements_model_resolution diagKernel initPlotter 0 1 (some invIdModel)
      {}).1 linDetEx (MModel.linear [[1, 0], [0, 2]]) rfl
  · have h := (plot_measurements_model_resolution diagKernel initPlotter 0 1 none {}).2.2.1
      linDetEx [[1, 0], [0, 2]] rfl
    rw [h]
    simp [diagKernel, transposeM, nColsM, colM, matVecM, dotQ, linDetEx, List.range_succ]
    norm_num
  · exact (plot_measurements_model_resolution diagKernel initPlotter 0 1 none {}).2.2.2.2.1
      noModelDetEx rfl
  · exact ((plot_measurements_model_resolution diagKernel initPlotter 0 1 none {}).2.2.2.2.2
      [genuineDetEx] [] noModelDetEx
      ⟨"Measurement model type not specified for all detections", rfl⟩).1
  · exact ((plot_measurements_model_resolution diagKernel initPlotter 0 1 none {}).2.2.2.2.2
      [genuineDetEx] [] noModelDetEx
      ⟨"Measurement model type not specified for all detections", rfl⟩).2

/-! ### Ellipse extraction helpers -/

/-- The ellipse artists among a list of drawing commands, in drawing order. -/
def ellipsesOf (cmds : List DrawCmd) : List EllipseCmd :=
  cmds.filterMap (fun c =>
    match c with
    | .ellipseCmd e => some e
    | _ => none)

theorem ellipsesOf_append (a b : List DrawCmd) :
    ellipsesOf (a ++ b) = ellipsesOf a ++ ellipsesOf b :=
  List.filterMap_append a b _

theorem ellipsesOf_map_line {α : Type} (l : List α) (f : α → List (ℚ × ℚ)) (s : Kwargs) :
    ellipsesOf (l.map (fun a => DrawCmd.lineCmd (f a) s)) = [] := by
  induction l with
  | nil => rfl
  | cons a t ih => simp [ellipsesOf] at ih ⊢

theorem ellipsesOf_map_ellipse {α : Type} (l : List α) (g : α → EllipseCmd) :
    ellipsesOf (l.map (fun a => DrawCmd.ellipseCmd (g a))) = l.map g := by
  induction l with
  | nil => rfl
  | cons a t ih => simpa [ellipsesOf] using ih

theorem ellipsesOf_flatMap_ellipse (tracks : List Track) (g : Track → TState → EllipseCmd) :
    ellipsesOf (tracks.flatMap (fun tr =>
        tr.states.map (fun st => DrawCmd.ellipseCmd (g tr st)))) =
      tracks.flatMap (fun tr => tr.states.map (g tr)) := by
  induction tracks with
  | nil => rfl
  | cons tr t ih => simp [ellipsesOf_append, ellipsesOf_map_ellipse, ih]

/-- C1: with `uncertainty=True`, `plot_tracks` draws exactly one ellipse per
state per track: the drawn ellipse list is exactly one entry per state, whose
orientation is `rad2deg(atan2(v[1,max], v[0,max]))` for the eigenvector
column of the larger eigenvalue of the covariance submatrix projected
through the mapping, and whose width and height parameters are `2*sqrt` of
the larger and smaller eigenvalue; the count equals the total number of
states, and the legend afterwards contains exactly one "Track" and one
"Uncertainty" entry regardless of the number of tracks. -/
theorem plot_tracks_uncertainty (K : NumKernel) (tracks : List Track) (m0 m1 : ℕ)
    (kwargs : Kwargs) :
    ellipsesOf (plot_tracks K initPlotter tracks m0 m1 true false kwargs).cmds =
      tracks.flatMap (fun tr => tr.states.map (fun st =>
        let HH := rowSelM (eyeM tr.ndim) m0 m1
        let wv := K.eig (matMulM (matMulM HH st.covar) (transposeM HH))
        let maxInd := if wv.1.getD 0 0 ≥ wv.1.getD 1 0 then 0 else 1
        let minInd := if wv.1.getD 0 0 ≤ wv.1.getD 1 0 then 0 else 1
        { xy := (st.state_vector.getD 0 0, st.state_vector.getD 2 0),
          width := 2 * K.sqrtF (wv.1.getD maxInd 0),
          height := 2 * K.sqrtF (wv.1.getD minInd 0),
          angle := K.rad2degF
            (K.atan2F ((wv.2.getD 1 []).getD maxInd 0) ((wv.2.getD 0 []).getD maxInd 0)),
          color := (dictUpdate { linestyle := some "-", marker := some ".", color := none }
            kwargs).color })) ∧
    (ellipsesOf (plot_tracks K initPlotter tracks m0 m1 true false kwargs).cmds).length =
      (tracks.map (fun tr => tr.states.length)).sum ∧
    (plot_tracks K initPlotter tracks m0 m1 true false kwargs).labels_list.count "Track" = 1 ∧
    (plot_tracks K initPlotter tracks m0 m1 true false kwargs).labels_list.count
      "Uncertainty" = 1 := by
  have hl : (plot_tracks K initPlotter tracks m0 m1 true false kwargs).labels_list =
      ["Track", "Uncertainty"] := by
    simp [plot_tracks, initPlotter]
  have he : ellipsesOf (plot_tracks K initPlotter tracks m0 m1 true false kwargs).cmds =
      tracks.flatMap (fun tr => tr.states.map
        (trackEllipse K m0 m1
          (dictUpdate { linestyle := some "-", marker := some ".", color := none }
            kwargs).color tr)) := by
    simp [plot_tracks, initPlotter, ellipsesOf_append, ellipsesOf_map_line,
      ellipsesOf_flatMap_ellipse]
  refine ⟨?_, ?_, ?_, ?_⟩
  · rw [he]
    rfl
  · rw [he]
    simp [List.length_flatMap, Function.comp_def]
  · rw [hl]
    decide
  · rw [hl]
    decide

/-- A concrete one-state track with an anisotropic diagonal covariance. -/
def trackEx : Track :=
  { ndim := 3,
    states := [{ state_vector := [1, 2, 3],
                 covar := [[1, 0, 0], [0, 2, 0], [0, 0, 3]],
                 particles := [] }] }

/-- Counterexample for C5 as stated: the mapping argument is *not* honored
only by the track line drawing — the ellipse artists themselves change when
only the mapping changes (the covariance is projected through the mapping),
shown here by widths 4 vs. 6 for mappings (0,1) and (0,2) on the same track. -/
theorem plot_tracks_mapping_counterexample :
    (ellipsesOf (plot_tracks diagKernel initPlotter [trackEx] 0 1 true false {}).cmds).map
        EllipseCmd.width = [4] ∧
    (ellipsesOf (plot_tracks diagKernel initPlotter [trackEx] 0 2 true false {}).cmds).map
        EllipseCmd.width = [6] ∧
    ellipsesOf (plot_tracks diagKernel initPlotter [trackEx] 0 1 true false {}).cmds ≠
      ellipsesOf (plot_tracks diagKernel initPlotter [trackEx] 0 2 true false {}).cmds := by
  have h1 : (ellipsesOf (plot_tracks diagKernel initPlotter [trackEx] 0 1 true false {}).cmds).map
      EllipseCmd.width = [4] := by
    simp [plot_tracks, initPlotter, ellipsesOf, trackEllipse, trackEx, diagKernel,
      rowSelM, eyeM, matMulM, transposeM, nColsM, colM, dotQ, List.range_succ]
    norm_num
  have h2 : (ellipsesOf (plot_tracks diagKernel initPlotter [trackEx] 0 2 true false {}).cmds).map
      EllipseCmd.width = [6] := by
    simp [plot_tracks, initPlotter, ellipsesOf, trackEllipse, trackEx, diagKernel,
      rowSelM, eyeM, matMulM, transposeM, nColsM, colM, dotQ, List.range_succ]
    norm_num
  refine ⟨h1, h2, ?_⟩
  intro h
  rw [h, h2] at h1
  have : (6 : ℚ) = 4 := (List.cons.injEq _ _ _ _ ▸ h1).1
  norm_num at this

/-- C5 (amended): in `plot_tracks`, every uncertainty ellipse is centered at
components 0 and 2 of the state vector, and every particle cloud is
scattered at components 0 and 2 of each particle vector — both independent
of the mapping argument; the mapping is honored by the track line drawing
and (for the ellipse shape) by the covariance projection. -/
theorem plot_tracks_fixed_center_indices (K : NumKernel) (p : Plotter)
    (tracks : List Track) (m0 m1 : ℕ) (kwargs : Kwargs) :
    (ellipsesOf ((plot_tracks K p tracks m0 m1 true false kwargs).cmds.drop
        p.cmds.length)).map EllipseCmd.xy =
      tracks.flatMap (fun tr => tr.states.map (fun st =>
        (st.state_vector.getD 0 0, st.state_vector.getD 2 0))) ∧
    (plot_tracks K p tracks m0 m1 false true kwargs).cmds.drop p.cmds.length =
      tracks.map (fun tr =>
        DrawCmd.lineCmd (mappedPtsV m0 m1 (tr.states.map TState.state_vector))
          (dictUpdate { linestyle := some "-", marker := some ".", color := none } kwargs)) ++
      tracks.flatMap (fun tr => tr.states.map (fun st =>
        DrawCmd.lineCmd (mappedPtsV 0 2 st.particles) particleStyle)) := by
  constructor
  · have hdrop : (plot_tracks K p tracks m0 m1 true false kwargs).cmds.drop p.cmds.length =
        tracks.map (fun tr =>
          DrawCmd.lineCmd (mappedPtsV m0 m1 (tr.states.map TState.state_vector))
            (dictUpdate { linestyle := some "-", marker := some ".", color := none } kwargs)) ++
        tracks.flatMap (fun tr => tr.states.map (fun st =>
          DrawCmd.ellipseCmd (trackEllipse K m0 m1
            (dictUpdate { linestyle := some "-", marker := some ".", color := none }
              kwargs).color tr st))) := by
      simp [plot_tracks, List.drop_left, List.drop_append_of_le_length]
    rw [hdrop, ellipsesOf_append, ellipsesOf_map_line, ellipsesOf_flatMap_ellipse]
    simp only [List.nil_append, List.map_flatMap, List.map_map]
    rfl
  · simp [plot_tracks, List.drop_left, List.drop_append_of_le_length]

/-! ### The legend registry across arbitrary call sequences -/

/-- One plotting call with its arguments. -/
inductive PlotOp where
  | gt (truths : List (List PState)) (m0 m1 : ℕ) (kwargs : Kwargs)
  | ms (K : NumKernel) (measurements : List Det) (m0 m1 : ℕ) (fb : Option MModel)
      (kwargs : Kwargs)
  | tk (K : NumKernel) (tracks : List Track) (m0 m1 : ℕ) (uncertainty particle : Bool)
      (kwargs : Kwargs)

/-- Apply one plotting call to the chart builder. -/
def applyOp (p : Plotter) : PlotOp → Plotter
  | .gt truths m0 m1 kwargs => plot_ground_truths p truths m0 m1 kwargs
  | .ms K measurements m0 m1 fb kwargs => plot_measurements K p measurements m0 m1 fb kwargs
  | .tk K tracks m0 m1 u pc kwargs => plot_tracks K p tracks m0 m1 u pc kwargs

theorem applyOp_extend (p : Plotter) (op : PlotOp) :
    ∃ th tl, th ≠ [] ∧ tl ≠ [] ∧
      (applyOp p op).handles_list = p.handles_list ++ th ∧
      (applyOp p op).labels_list = p.labels_list ++ tl := by
  cases op with
  | gt truths m0 m1 kwargs =>
    refine ⟨[Handle.line2d
        { linestyle := kwargs.linestyle <|> some "--",
          marker := none,
          color := some "black" }],
      ["Ground Truth"], ?_, ?_, ?_, ?_⟩ <;>
      simp [applyOp, plot_ground_truths, dictUpdate]
  | ms K measurements m0 m1 fb kwargs =>
    refine ⟨Handle.line2d
        { linestyle := some "",
          marker := kwargs.marker <|> some "o",
          color := kwargs.color <|> some "b" } ::
        (if (measurements.foldl (measStep K fb
          (dictUpdate { marker := some "o", color := some "b" } kwargs) m0 m1)
          { cmds := [], warnList := [], clutterSeen := false }).clutterSeen
          then [Handle.line2d clutterStyle] else []),
      "Measurements" ::
        (if (measurements.foldl (measStep K fb
          (dictUpdate { marker := some "o", color := some "b" } kwargs) m0 m1)
          { cmds := [], warnList := [], clutterSeen := false }).clutterSeen
          then ["Clutter"] else []), ?_, ?_, ?_, ?_⟩ <;>
      simp [applyOp, plot_measurements, dictUpdate]
  | tk K tracks m0 m1 u pc kwargs =>
    cases u with
    | true =>
      refine ⟨[Handle.line2d
          { linestyle := kwargs.linestyle <|> some "-",
            marker := kwargs.marker <|> some ".",
            color := some "black" },
        Handle.ellipseHandle (kwargs.color <|> none)],
        ["Track", "Uncertainty"], ?_, ?_, ?_, ?_⟩ <;>
        simp [applyOp, plot_tracks, dictUpdate]
    | false =>
      cases pc with
      | true =>
        refine ⟨[Handle.line2d
            { linestyle := kwargs.linestyle <|> some "-",
              marker := kwargs.marker <|> some ".",
              color := some "black" },
          Handle.line2d { linestyle := some "", marker := some ".", color := some "black" }],
          ["Track", "Particles"], ?_, ?_, ?_, ?_⟩ <;>
          simp [applyOp, plot_tracks, dictUpdate]
      | false =>
        refine ⟨[Handle.line2d
            { linestyle := kwargs.linestyle <|> some "-",
              marker := kwargs.marker <|> some ".",
              color := some "black" }],
          ["Track"], ?_, ?_, ?_, ?_⟩ <;>
          simp [applyOp, plot_tracks, dictUpdate]

theorem foldOps_labels_extend (p : Plotter) (ops : List PlotOp) :
    ∃ t, (ops.foldl applyOp p).labels_list = p.labels_list ++ t := by
  induction ops generalizing p with
  | nil => exact ⟨[], by simp⟩
  | cons op rest ih =>
    obtain ⟨t1, tl1, _, _, _, h1⟩ := applyOp_extend p op
    obtain ⟨t2, h2⟩ := ih (applyOp p op)
    exact ⟨tl1 ++ t2, by rw [List.foldl_cons, h2, h1, List.append_assoc]⟩

/-- C9: the legend registry is append-only: every plotting call appends at
least one handle and one label and removes or reorders nothing; across any
sequence of calls the label list only grows; a repeated `plot_ground_truths`
call appends a second duplicate "Ground Truth" entry; and after every call
the legend is re-rendered from the full accumulated lists. -/
theorem legend_registry_append_only (p : Plotter) (op : PlotOp) :
    (∃ th tl, th ≠ [] ∧ tl ≠ [] ∧
      (applyOp p op).handles_list = p.handles_list ++ th ∧
      (applyOp p op).labels_list = p.labels_list ++ tl) ∧
    (applyOp p op).legendHandles = (applyOp p op).handles_list ∧
    (applyOp p op).legendLabels = (applyOp p op).labels_list ∧
    p.labels_list.length < (applyOp p op).labels_list.length ∧
    p.handles_list.length < (applyOp p op).handles_list.length ∧
    (∀ ops : List PlotOp, ∃ t, (ops.foldl applyOp p).labels_list = p.labels_list ++ t) ∧
    (∀ (truths : List (List PState)) (m0 m1 : ℕ) (kwargs : Kwargs),
      (plot_ground_truths (plot_ground_truths p truths m0 m1 kwargs) truths m0 m1
          kwargs).labels_list.count "Ground Truth" =
        p.labels_list.count "Ground Truth" + 2) := by
  obtain ⟨th, tl, hth, htl, hh, hl⟩ := applyOp_extend p op
  have hlegend : (applyOp p op).legendHandles = (applyOp p op).handles_list ∧
      (applyOp p op).legendLabels = (applyOp p op).labels_list := by
    cases op with
    | gt truths m0 m1 kwargs => simp [applyOp, plot_ground_truths]
    | ms K measurements m0 m1 fb kwargs => simp [applyOp, plot_measurements]
    | tk K tracks m0 m1 u pc kwargs =>
      cases u <;> cases pc <;> simp [applyOp, plot_tracks]
  refine ⟨⟨th, tl, hth, htl, hh, hl⟩, hlegend.1, hlegend.2, ?_, ?_, foldOps_labels_extend p, ?_⟩
  · rw [hl]
    simp [List.length_append, Nat.lt_add_of_pos_right, List.length_pos, htl]
  · rw [hh]
    simp [List.length_append, Nat.lt_add_of_pos_right, List.length_pos, hth]
  · intro truths m0 m1 kwargs
    have h2 : (plot_ground_truths (plot_ground_truths p truths m0 m1 kwargs) truths m0 m1
        kwargs).labels_list = p.labels_list ++ ["Ground Truth"] ++ ["Ground Truth"] := by
      simp [plot_ground_truths]
    rw [h2]
    simp [List.count_append]

/-! ### `prepare_data` behaviour -/

theorem isState_of_isDet (e : Elem) (h : isDet e = true) : isState e = true := by
  cases e <;> simp [isDet, isState] at *

theorem all_isState_of_all_isDet (l : List Elem) (h : l.all isDet = true) :
    l.all isState = true := by
  rw [List.all_eq_true] at h ⊢
  exact fun e he => isState_of_isDet e (h e he)

theorem invertAll_eq_none (l : List Elem) :
    invertAll l = none ↔ ∃ e ∈ l, invElem e = none := by
  induction l with
  | nil => simp [invertAll]
  | cons a t ih =>
    cases h : invElem a with
    | none => simp [invertAll, h]
    | some b =>
      simp only [invertAll, h, Option.some_bind]
      constructor
      · intro hmap
        have ht : invertAll t = none := by
          cases hmt : invertAll t with
          | none => rfl
          | some out => rw [hmt] at hmap; simp at hmap
        obtain ⟨e, he, hnone⟩ := ih.mp ht
        exact ⟨e, List.mem_cons_of_mem a he, hnone⟩
      · rintro ⟨e, he, hnone⟩
        rcases List.mem_cons.mp he with rfl | he2
        · rw [h] at hnone; cases hnone
        · rw [ih.mpr ⟨e, he2, hnone⟩]
          rfl

theorem invertAll_eq_map (l : List Elem) (h : ∀ e ∈ l, (invElem e).isSome = true) :
    invertAll l = some (l.map (fun e => (invElem e).getD Elem.nonState)) := by
  induction l with
  | nil => simp [invertAll]
  | cons a t ih =>
    have ha : (invElem a).isSome = true := h a (List.mem_cons_self a t)
    obtain ⟨b, hb⟩ := Option.isSome_iff_exists.mp ha
    have ht := ih (fun e he => h e (List.mem_cons_of_mem a he))
    simp [invertAll, hb, ht]

/-- A detection whose attached model has an identity inverse function. -/
def invDetEx : Det := ⟨[2, 3], 5, some invIdModel, .genuine⟩

/-- C2: `prepare_data` raises on any non-`State` element; passes the list
through unchanged when all elements are `State`s but not all are
`Detection`s; when all are `Detection`s it inverts each through its attached
measurement model's inverse function into new `State`s at the original
timestamps, and if any element lacks the inverse capability the whole output
becomes `None` instead of a partial transformation. -/
theorem prepare_data_spec (l : List Elem) :
    (l.all isState = false → prepare_data l = .error ()) ∧
    (l.all isState = true → l.all isDet = false → prepare_data l = .ok (some l)) ∧
    (l.all isDet = true → (∃ e ∈ l, invElem e = none) → prepare_data l = .ok none) ∧
    (l.all isDet = true → (∀ e ∈ l, (invElem e).isSome = true) →
      prepare_data l = .ok (some (l.map (fun e => (invElem e).getD Elem.nonState)))) ∧
    (∀ d : Det, ∀ f : List ℚ → List ℚ,
      d.measurement_model = some (MModel.nonlinear (some f)) →
      invElem (Elem.det d) = some (Elem.state ⟨f d.state_vector, d.timestamp⟩)) ∧
    (∀ d : Det, d.measurement_model = none → invElem (Elem.det d) = none) := by
  refine ⟨?_, ?_, ?_, ?_, ?_, ?_⟩
  · intro h
    simp [prepare_data, h]
  · intro h1 h2
    simp [prepare_data, h1, h2]
  · intro hdet hex
    have hs := all_isState_of_all_isDet l hdet
    have hnone := (invertAll_eq_none l).mpr hex
    simp [prepare_data, hs, hdet, hnone]
  · intro hdet hall
    have hs := all_isState_of_all_isDet l hdet
    have hsome := invertAll_eq_map l hall
    simp [prepare_data, hs, hdet, hsome]
  · intro d f h
    simp [invElem, h]
  · intro d h
    simp [invElem, h]

/-- Witness for C2 at concrete inputs: a non-`State` element raises; a plain
`State` list passes through; a model-less detection nullifies the series; an
invertible detection list is inverted state-by-state with its timestamps. -/
theorem prepare_data_spec_witness :
    prepare_data [Elem.nonState] = .error () ∧
    prepare_data [Elem.state ⟨[1], 0⟩] = .ok (some [Elem.state ⟨[1], 0⟩]) ∧
    prepare_data [Elem.det noModelDetEx] = .ok none ∧
    prepare_data [Elem.det invDetEx] = .ok (some [Elem.state ⟨[2, 3], 5⟩]) ∧
    invElem (Elem.det invDetEx) = some (Elem.state ⟨[2, 3], 5⟩) ∧
    invElem (Elem.det noModelDetEx) = none := by
  refine ⟨?_, ?_, ?_, ?_, ?_, ?_⟩
  · exact (prepare_data_spec [Elem.nonState]).1 rfl
  · exact (prepare_data_spec [Elem.state ⟨[1], 0⟩]).2.1 rfl rfl
  · exact (prepare_data_spec [Elem.det noModelDetEx]).2.2.1 rfl
      ⟨Elem.det noModelDetEx, by simp, rfl⟩
  · exact ((prepare_data_spec [Elem.det invDetEx]).2.2.2.1 rfl
      (by intro e he; simp at he; subst he; rfl)).trans rfl
  · exact (prepare_data_spec [Elem.det invDetEx]).2.2.2.2.1 invDetEx (fun v => v) rfl
  · exact (prepare_data_spec [Elem.det noModelDetEx]).2.2.2.2.2 noModelDetEx rfl

/-! ### `update_animation` behaviour -/

/-- The per-series frame update: visible points are the states with
timestamp at most the frame time, projected to components 0 and 2; a series
with no visible points leaves its line unchanged, as does a `None` series. -/
def updLine (t : ℤ) (line : LineData) (d : Option (List PState)) : LineData :=
  match d with
  | none => line
  | some ds =>
    let pts := mappedPtsV 0 2
      ((ds.filter (fun s => decide (s.timestamp ≤ t))).map PState.state_vector)
    if pts.isEmpty then line else pts

theorem set_len_append (pre : List LineData) (l0 : LineData) (ls' : List LineData)
    (x : LineData) : (pre ++ l0 :: ls').set pre.length x = pre ++ x :: ls' := by
  induction pre with
  | nil => rfl
  | cons a rest ih => simp [List.set, ih]

theorem updateAt_append (t : ℤ) (pre : List LineData) (l0 : LineData)
    (ls' : List LineData) (d : Option (List PState)) :
    updateAt t (pre ++ l0 :: ls') pre.length d = pre ++ updLine t l0 d :: ls' := by
  unfold updateAt updLine
  cases d with
  | none => rfl
  | some ds =>
    by_cases hp : (mappedPtsV 0 2
        ((ds.filter (fun s => decide (s.timestamp ≤ t))).map PState.state_vector)).isEmpty <;>
      simp [hp, set_len_append]

theorem updateLoop_zip (t : ℤ) :
    ∀ (dl : List (Option (List PState))) (pre ls : List LineData),
      ls.length = dl.length →
      updateLoop t (pre ++ ls) pre.length dl = pre ++ List.zipWith (updLine t) ls dl := by
  intro dl
  induction dl with
  | nil =>
    intro pre ls h
    have hnil : ls = [] := List.length_eq_zero.mp (by simp [h])
    subst hnil
    simp [updateLoop]
  | cons d rest ih =>
    intro pre ls h
    cases ls with
    | nil => simp at h
    | cons l0 ls' =>
      have h' : ls'.length = rest.length := by simpa using h
      have step : updateLoop t (pre ++ l0 :: ls') pre.length (d :: rest) =
          updateLoop t ((pre ++ [updLine t l0 d]) ++ ls')
            (pre ++ [updLine t l0 d]).length rest := by
        show updateLoop t (updateAt t (pre ++ l0 :: ls') pre.length d)
            (pre.length + 1) rest = _
        rw [updateAt_append]
        simp
      rw [step, ih (pre ++ [updLine t l0 d]) ls' h']
      simp

theorem update_animation_eq (t : ℤ) (lines : List LineData)
    (dl : List (Option (List PState))) (h : lines.length = dl.length) :
    update_animation t lines dl = List.zipWith (updLine t) lines dl := by
  have hz := updateLoop_zip t dl [] lines h
  simpa [update_animation] using hz

/-- C6: for every frame timestamp, `update_animation` sets each non-null
series' line to the components 0 and 2 of exactly the states with timestamp
at most the frame time, in order, and leaves the line unchanged when that
set is empty (and also for a null series); lines beyond the data list are
untouched since the loop enumerates the data list. -/
theorem update_animation_frame_spec (t : ℤ) (lines : List LineData)
    (dl : List (Option (List PState))) (h : lines.length = dl.length) :
    update_animation t lines dl = List.zipWith (fun line d =>
      match d with
      | none => line
      | some ds =>
        let pts := (ds.filter (fun s => decide (s.timestamp ≤ t))).map
          (fun s => (s.state_vector.getD 0 0, s.state_vector.getD 2 0))
        if pts.isEmpty then line else pts) lines dl := by
  have hfun : (fun (line : LineData) (d : Option (List PState)) =>
      match d with
      | none => line
      | some ds =>
        let pts := (ds.filter (fun s => decide (s.timestamp ≤ t))).map
          (fun s => (s.state_vector.getD 0 0, s.state_vector.getD 2 0))
        if pts.isEmpty then line else pts) = updLine t := by
    funext line d
    cases d with
    | none => rfl
    | some ds => simp [updLine, mappedPtsV, List.map_map, Function.comp_def]
  rw [hfun]
  exact update_animation_eq t lines dl h

/-- Witness for C6 at a concrete frame: a null series and a series with no
visible state keep their stale lines, a series with one visible state gets
exactly that projected point. -/
theorem update_animation_frame_spec_witness :
    update_animation 5 [[((0 : ℚ), (0 : ℚ))], [((5 : ℚ), (5 : ℚ))], [((7 : ℚ), (7 : ℚ))]]
        [none, some [⟨[1, 9, 2], 3⟩, ⟨[4, 9, 6], 10⟩], some [⟨[8, 9, 9], 99⟩]] =
      [[((0 : ℚ), (0 : ℚ))], [((1 : ℚ), (2 : ℚ))], [((7 : ℚ), (7 : ℚ))]] := by
  rw [update_animation_frame_spec 5
    [[((0 : ℚ), (0 : ℚ))], [((5 : ℚ), (5 : ℚ))], [((7 : ℚ), (7 : ℚ))]]
    [none, some [⟨[1, 9, 2], 3⟩, ⟨[4, 9, 6], 10⟩], some [⟨[8, 9, 9], 99⟩]] rfl]
  rfl

/-! ### `run_animation` failure modes -/

theorem except_bind_err {α β : Type} (e : RunErr) (f : α → Except RunErr β) :
    (Except.error e >>= f) = Except.error e := rfl

theorem except_bind_ok {α β : Type} (a : α) (f : α → Except RunErr β) :
    (Except.ok a >>= f) = f a := rfl

theorem mkLines_err_of_mem_empty (data : List PlotObj)
    (h : ∃ o ∈ data, o.plotting_data = some []) :
    mkLines data = .error RunErr.indexErr := by
  induction data with
  | nil => simp at h
  | cons o rest ih =>
    obtain ⟨w, hw, hwd⟩ := h
    rcases List.mem_cons.mp hw with rfl | hw2
    · simp [mkLines, hwd]
    · cases hod : o.plotting_data with
      | none => simpa [mkLines, hod] using ih ⟨w, hw2, hwd⟩
      | some ds =>
        cases hds : ds.isEmpty with
        | true => simp [mkLines, hod, hds]
        | false => simp [mkLines, hod, hds, ih ⟨w, hw2, hwd⟩, except_bind_err]

/-- C7: an empty collection of series makes `run_animation` fail with the
empty-sequence `min`/`max` error in the axis-bounds computation, and a series
with zero states makes it fail with the indexing error of the initial
one-point plot (`the_data[:1, 0]` on an empty array); neither condition is
pre-validated. -/
theorem run_animation_empty_fails (times : List ℤ) (data : List PlotObj) :
    (data = [] → run_animation times data = .error RunErr.valueErr ∧
      computeBounds data = .error RunErr.valueErr) ∧
    ((∃ o ∈ data, o.plotting_data = some []) →
      run_animation times data = .error RunErr.indexErr ∧
      mkLines data = .error RunErr.indexErr) := by
  constructor
  · rintro rfl
    constructor <;> rfl
  · intro h
    have hm := mkLines_err_of_mem_empty data h
    constructor
    · simp [run_animation, hm, except_bind_err]
    · exact hm

/-- Witness for C7: the empty collection fails with the bounds error; a
single series with zero states fails with the indexing error. -/
theorem run_animation_empty_fails_witness :
    run_animation [0] ([] : List PlotObj) = .error RunErr.valueErr ∧
    run_animation [0] [{ plotting_data := some [], legend_key := "a", kw := {} }] =
      .error RunErr.indexErr := by
  constructor
  · exact ((run_animation_empty_fails [0] []).1 rfl).1
  · exact ((run_animation_empty_fails [0]
      [{ plotting_data := some [], legend_key := "a", kw := {} }]).2
      ⟨{ plotting_data := some [], legend_key := "a", kw := {} }, by simp, rfl⟩).1

theorem mkLines_ok_of_no_empty (data : List PlotObj)
    (h : ∀ o ∈ data, o.plotting_data ≠ some []) :
    ∃ r, mkLines data = .ok r := by
  induction data with
  | nil => exact ⟨([], [], []), rfl⟩
  | cons o rest ih =>
    obtain ⟨r, hr⟩ := ih (fun o' ho' => h o' (List.mem_cons_of_mem o ho'))
    cases hod : o.plotting_data with
    | none => exact ⟨r, by simpa [mkLines, hod] using hr⟩
    | some ds =>
      have hne : ds ≠ [] := by
        intro hnil
        exact h o (List.mem_cons_self o rest) (by rw [hod, hnil])
      have hemp : ds.isEmpty = false := by
        cases ds with
        | nil => exact absurd rfl hne
        | cons a t => rfl
      obtain ⟨ls, ks, pd⟩ := r
      exact ⟨(mappedPtsV 0 2 ((ds.take 1).map PState.state_vector) :: ls,
        o.legend_key :: ks, ds :: pd), by simp [mkLines, hod, hemp, hr, except_bind_ok]⟩

theorem allStatesData_err (data : List PlotObj)
    (h : ∃ o ∈ data, o.plotting_data = none) :
    allStatesData data = .error RunErr.typeErr := by
  induction data with
  | nil => simp at h
  | cons o rest ih =>
    obtain ⟨w, hw, hwd⟩ := h
    rcases List.mem_cons.mp hw with rfl | hw2
    · simp [allStatesData, hwd]
    · cases hod : o.plotting_data with
      | none => simp [allStatesData, hod]
      | some ds => simp [allStatesData, hod, ih ⟨w, hw2, hwd⟩, except_bind_err]

/-- C10: a null-data series (the unusable-series sentinel from a failed
inversion) makes `run_animation` error in the axis-limits computation: line
creation succeeds (null series are skipped there), but the bounds generator
iterates the stored data of every series including the null one and raises
the `NoneType`-not-iterable error. -/
theorem run_animation_null_series (times : List ℤ) (data : List PlotObj)
    (h1 : ∃ o ∈ data, o.plotting_data = none)
    (h2 : ∀ o ∈ data, o.plotting_data ≠ some []) :
    run_animation times data = .error RunErr.typeErr ∧
    (∃ r, mkLines data = .ok r) ∧
    computeBounds data = .error RunErr.typeErr := by
  obtain ⟨r, hr⟩ := mkLines_ok_of_no_empty data h2
  have hb : computeBounds data = .error RunErr.typeErr := by
    simp [computeBounds, allStatesData_err data h1, except_bind_err]
  obtain ⟨ls, ks, pd⟩ := r
  refine ⟨?_, ⟨(ls, ks, pd), hr⟩, hb⟩
  simp [run_animation, hr, hb, except_bind_ok, except_bind_err]

/-- Witness for C10: one null series next to a healthy nonempty series makes
`run_animation` fail with the bounds-stage error while line creation is fine. -/
theorem run_animation_null_series_witness :
    run_animation [0]
      [{ plotting_data := none, legend_key := "a", kw := {} },
       { plotting_data := some [⟨[1, 0, 2], 0⟩], legend_key := "b", kw := {} }] =
      .error RunErr.typeErr := by
  exact (run_animation_null_series [0]
    [{ plotting_data := none, legend_key := "a", kw := {} },
     { plotting_data := some [⟨[1, 0, 2], 0⟩], legend_key := "b", kw := {} }]
    ⟨{ plotting_data := none, legend_key := "a", kw := {} }, by simp, rfl⟩
    (by decide)).1

end StoneSoup
